import Mathlib

/-!
Verification of the scispacy data utilities (`scispacy/data_util.py`):
the MedMentions PubTator record parser, the stream iterator, the corpus
splitter and the BIO-to-span sentence converter.  Python strings are
modelled as Lean `String` (both index by code points), Python `int` as
`Int`, Python exceptions as an `Except PyError` result, and the resolved
dataset directory as an association list from file names to file lines.
-/

/-- Errors raised by the Python code, by exception class. -/
inductive PyError where
  | fileNotFound (name : String)
  | keyError (key : String)
  | valueError
  | indexError
deriving DecidableEq, Repr

/-- Python `s.strip()`: drop whitespace from both ends, on the character
list of the string. -/
def pyStrip (s : String) : String :=
  String.mk (((s.data.dropWhile Char.isWhitespace).reverse.dropWhile
    Char.isWhitespace).reverse)

/-- Python `s.upper()` (ASCII case mapping), on the character list. -/
def pyUpper (s : String) : String :=
  String.mk (s.data.map Char.toUpper)

/-- Python `s[n:]`, on the character list. -/
def pySliceFrom (n : Nat) (s : String) : String :=
  String.mk (s.data.drop n)

/-- The digits of a decimal numeral, or `none` when the list is empty or
holds a non-digit. -/
def digitsToNat : List Char → Option Nat
  | [] => none
  | ds =>
    if ds.all Char.isDigit then
      some (ds.foldl (fun n c => 10 * n + (c.toNat - '0'.toNat)) 0)
    else none

/-- Python `int(s)`: optional surrounding whitespace, an optional sign,
then decimal digits; `ValueError` (here `none`) otherwise. -/
def pyToInt? (s : String) : Option Int :=
  match (pyStrip s).data with
  | '-' :: ds => (digitsToNat ds).map (fun n => -(n : Int))
  | '+' :: ds => (digitsToNat ds).map (fun n => (n : Int))
  | ds => (digitsToNat ds).map (fun n => (n : Int))

/-- Python `s.split(sep)` for a single-character separator, on the
character list of the string: splits at every occurrence, keeping empty
segments (so the result is always non-empty). -/
def splitChar (sep : Char) : List Char → List (List Char)
  | [] => [[]]
  | c :: rest =>
    if c = sep then [] :: splitChar sep rest
    else
      match splitChar sep rest with
      | [] => [[c]]
      | g :: gs => (c :: g) :: gs

/-- Python `s.split(sep, maxsplit=n)` for a single-character separator:
at most `n` splits, scanning left to right. -/
def splitCharBounded (sep : Char) : Nat → List Char → List (List Char)
  | 0, s => [s]
  | _ + 1, [] => [[]]
  | n + 1, c :: rest =>
    if c = sep then [] :: splitCharBounded sep n rest
    else
      match splitCharBounded sep (n + 1) rest with
      | [] => [[c]]
      | g :: gs => (c :: g) :: gs

/-- String-level wrapper for Python `s.split(sep)`. -/
def pySplit (sep : Char) (s : String) : List String :=
  (splitChar sep s.data).map String.mk

/-- String-level wrapper for Python `s.split(sep, maxsplit=n)`. -/
def pySplitBounded (sep : Char) (n : Nat) (s : String) : List String :=
  (splitCharBounded sep n s.data).map String.mk

/-- Python `s[a:b]` (half-open slice by code points) for `0 ≤ a ≤ b`. -/
def strSlice (s : String) (a b : Int) : String :=
  String.mk ((s.data.drop a.toNat).take (b - a).toNat)

/-- Look up a file's lines in the modelled directory. -/
def lookupFile (fs : List (String × List String)) (name : String) :
    Option (List String) :=
  (fs.find? (fun p => p.1 = name)).map Prod.snd

/-- Python `open(...)`: the file's lines, or `FileNotFoundError`. -/
def openFile (fs : List (String × List String)) (name : String) :
    Except PyError (List String) :=
  match lookupFile fs name with
  | some ls => .ok ls
  | none => .error (.fileNotFound name)

/-- `MedMentionEntity` from `data_util.py`. -/
structure MedMentionEntity where
  start : Int
  «end» : Int
  mention_text : String
  mention_type : String
  umls_id : String
deriving DecidableEq, Repr

/-- `MedMentionExample` from `data_util.py`. -/
structure MedMentionExample where
  title : String
  abstract : String
  text : String
  pubmed_id : String
  entities : List MedMentionEntity
deriving DecidableEq, Repr

/-- Sequential evaluation of a fallible function over a list (a Python
list comprehension or loop whose body may raise): the first error wins. -/
def mapExcept {α β : Type} (f : α → Except PyError β) : List α → Except PyError (List β)
  | [] => .ok []
  | x :: xs =>
    match f x with
    | .error e => .error e
    | .ok y =>
      match mapExcept f xs with
      | .error e => .error e
      | .ok ys => .ok (y :: ys)

/-- One annotation line of `process_example`:
`_, start, end, mention, mention_type, umls_id = entity_line.split("\t")`,
then `mention_type = mention_type.split(",")[0]` and integer conversion of
the offsets (`ValueError` on a wrong field count or non-numeric offset). -/
def processEntityLine (line : String) : Except PyError MedMentionEntity :=
  match pySplit '\t' line with
  | [_, s, e, mention, mention_type, umls_id] =>
    match pyToInt? s with
    | none => .error .valueError
    | some start =>
      match pyToInt? e with
      | none => .error .valueError
      | some «end» =>
        .ok ⟨start, «end», mention, (pySplit ',' mention_type).headD "", umls_id⟩
  | _ => .error .valueError

/-- `process_example` from `data_util.py`: parses one PubTator block.
`lines[0]`/`lines[1]` raise `IndexError` when absent; the `|`-split with
`maxsplit=2` must yield exactly three parts for the three-way unpacking
(`ValueError` otherwise, each part stripped). -/
def process_example (lines : List String) : Except PyError MedMentionExample :=
  match lines[0]? with
  | none => .error .indexError
  | some l0 =>
    match lines[1]? with
    | none => .error .indexError
    | some l1 =>
      match (pySplitBounded '|' 2 l0).map pyStrip with
      | [pubmed_id, _, title] =>
        match (pySplitBounded '|' 2 l1).map pyStrip with
        | [_, _, abstract] =>
          match mapExcept processEntityLine (lines.drop 2) with
          | .error e => .error e
          | .ok entities =>
            .ok ⟨title, abstract, title ++ " " ++ abstract, pubmed_id, entities⟩
        | _ => .error .valueError
      | _ => .error .valueError

/-- The accumulating loop of `med_mentions_example_iterator`: strip each
line, buffer non-blank lines, parse-and-yield the buffer at each blank
line, and parse-and-yield a non-empty buffer left at end of file. -/
def mmIterGo : List String → List String → Except PyError (List MedMentionExample)
  | [], buf =>
    if buf.isEmpty then .ok []
    else
      match process_example buf with
      | .error e => .error e
      | .ok ex => .ok [ex]
  | l :: rest, buf =>
    if pyStrip l = "" then
      match process_example buf with
      | .error e => .error e
      | .ok ex =>
        match mmIterGo rest [] with
        | .error e => .error e
        | .ok more => .ok (ex :: more)
    else mmIterGo rest (buf ++ [pyStrip l])

/-- `med_mentions_example_iterator` from `data_util.py`, applied to the
lines of the corpus file (the whole lazy stream, forced). -/
def med_mentions_example_iterator (fileLines : List String) :
    Except PyError (List MedMentionExample) :=
  mmIterGo fileLines []

/-- An element of the lists returned by `read_full_med_mentions`: either a
spacy-format example `(text, {"entities": ...})` or a raw
`MedMentionExample`, per the `spacy_format` flag. -/
inductive MMOut where
  | spacy (text : String) (entities : List (Int × Int × String))
  | raw (ex : MedMentionExample)
deriving DecidableEq, Repr

/-- `label_function` from `read_full_med_mentions`: the constant label when
`span_only` is set, the raw label with no mapping, otherwise the mapping
lookup `label_mapping[label]` (`KeyError` when absent). -/
def label_function (span_only : Bool) (label_mapping : Option (List (String × String)))
    (label : String) : Except PyError String :=
  if span_only then .ok "ENTITY"
  else
    match label_mapping with
    | none => .ok label
    | some m =>
      match m.find? (fun p => p.1 = label) with
      | some p => .ok p.2
      | none => .error (.keyError label)

/-- The `spacy_format_entities` computation of `read_full_med_mentions`:
`[(x.start, x.end, label_function(x.mention_type)) for x in example.entities]`. -/
def mkSpacyEntities (span_only : Bool) (label_mapping : Option (List (String × String)))
    (ents : List MedMentionEntity) : Except PyError (List (Int × Int × String)) :=
  mapExcept (fun x =>
    (label_function span_only label_mapping x.mention_type).map
      (fun l => (x.start, x.«end», l))) ents

/-- The routing loop of `read_full_med_mentions`: for each example the
spacy entities are computed first (so a `KeyError` aborts regardless of
routing), then the example is appended to the train list if its
`pubmed_id` is in the train set, else to dev, else to test, else dropped. -/
def routeLoop (span_only : Bool) (label_mapping : Option (List (String × String)))
    (spacy_format : Bool) (train_ids dev_ids test_ids : List String) :
    List MedMentionExample → List MMOut × List MMOut × List MMOut →
    Except PyError (List MMOut × List MMOut × List MMOut)
  | [], acc => .ok acc
  | e :: rest, (tr, dv, te) =>
    match mkSpacyEntities span_only label_mapping e.entities with
    | .error err => .error err
    | .ok ents =>
      let out := if spacy_format then MMOut.spacy e.text ents else MMOut.raw e
      if e.pubmed_id ∈ train_ids then
        routeLoop span_only label_mapping spacy_format train_ids dev_ids test_ids
          rest (tr ++ [out], dv, te)
      else if e.pubmed_id ∈ dev_ids then
        routeLoop span_only label_mapping spacy_format train_ids dev_ids test_ids
          rest (tr, dv ++ [out], te)
      else if e.pubmed_id ∈ test_ids then
        routeLoop span_only label_mapping spacy_format train_ids dev_ids test_ids
          rest (tr, dv, te ++ [out])
      else
        routeLoop span_only label_mapping spacy_format train_ids dev_ids test_ids
          rest (tr, dv, te)

/-- `read_full_med_mentions` from `data_util.py`, over a resolved
directory modelled as an association list of file names to lines.  The
three pmid files are opened eagerly (train first, then dev, then test);
the corpus file is opened when the lazy iterator is first consumed, which
happens inside this call; `corpus_pubtator_pmids_all.txt` is never
opened.  Each id set is the set of stripped lines of its file. -/
def read_full_med_mentions (fs : List (String × List String))
    (label_mapping : Option (List (String × String)))
    (span_only : Bool) (spacy_format : Bool) :
    Except PyError (List MMOut × List MMOut × List MMOut) :=
  match openFile fs "corpus_pubtator_pmids_trng.txt" with
  | .error e => .error e
  | .ok trainLines =>
    match openFile fs "corpus_pubtator_pmids_dev.txt" with
    | .error e => .error e
    | .ok devLines =>
      match openFile fs "corpus_pubtator_pmids_test.txt" with
      | .error e => .error e
      | .ok testLines =>
        match openFile fs "corpus_pubtator.txt" with
        | .error e => .error e
        | .ok corpusLines =>
          match med_mentions_example_iterator corpusLines with
          | .error e => .error e
          | .ok examples =>
            routeLoop span_only label_mapping spacy_format
              (trainLines.map pyStrip) (devLines.map pyStrip)
              (testLines.map pyStrip) examples ([], [], [])

/-- The per-example output of the splitter, as a single value: the spacy
entities (possibly failing with `KeyError`) packaged per `spacy_format`. -/
def fmtEx (span_only : Bool) (label_mapping : Option (List (String × String)))
    (spacy_format : Bool) (e : MedMentionExample) : Except PyError MMOut :=
  (mkSpacyEntities span_only label_mapping e.entities).map
    (fun ents => if spacy_format then MMOut.spacy e.text ents else MMOut.raw e)

/-- The loop state of `_handle_sentence`. -/
structure HSState where
  start_index : Int
  current_index : Int
  in_entity : Bool
  entity_type : String
  sent : String
  entities : List (Int × Int × String)
deriving Repr

/-- The initial state of `_handle_sentence`. -/
def hsInit : HSState := ⟨-1, 0, false, "", "", []⟩

/-- One iteration of the loop of `_handle_sentence` on a `(word, entity)`
pair: append the word and a space to the sentence, open a span on an
`O`→non-`O` transition (type = tag with its two-character prefix stripped,
uppercased), close the open span on a non-`O`→`O` transition with
`end = current_index - 1`, and advance the cursor by `len(word) + 1`. -/
def hsStep (st : HSState) (we : String × String) : HSState :=
  let word := we.1
  let entity := we.2
  let sent := st.sent ++ word ++ " "
  if entity ≠ "O" then
    if st.in_entity then
      { st with sent := sent,
                current_index := st.current_index + ((word.length : Int) + 1) }
    else
      { st with sent := sent,
                start_index := st.current_index,
                in_entity := true,
                entity_type := pyUpper (pySliceFrom 2 entity),
                current_index := st.current_index + ((word.length : Int) + 1) }
  else
    { st with sent := sent,
              entities :=
                if st.in_entity then
                  st.entities ++ [(st.start_index, st.current_index - 1, st.entity_type)]
                else st.entities,
              in_entity := false,
              entity_type := "",
              start_index := -1,
              current_index := st.current_index + ((word.length : Int) + 1) }

/-- The after-loop close of `_handle_sentence`: a span still open at the
end of the sentence is closed with `end = current_index - 1`. -/
def hsClose (st : HSState) : List (Int × Int × String) :=
  if st.in_entity then
    st.entities ++ [(st.start_index, st.current_index - 1, st.entity_type)]
  else st.entities

/-- `_handle_sentence` from `data_util.py`: fold the loop over the
`(word, tag)` pairs, close a span still open at the end of the sentence,
and drop the trailing space (`sent[:-1]`). -/
def _handle_sentence (examples : List (String × String)) :
    String × List (Int × Int × String) :=
  let st := examples.foldl hsStep hsInit
  (String.mk st.sent.data.dropLast, hsClose st)

/-- The accumulating loop of `read_ner_from_tsv`: strip each line, skip
`-DOCSTART-` lines, flush the buffered sentence through
`_handle_sentence` at each blank line (skipping the flush when the buffer
is empty), split other lines into exactly two tab-separated fields
(`ValueError` otherwise), and flush a non-empty buffer at end of file. -/
def readNerGo : List String → List (String × String) →
    Except PyError (List (String × List (Int × Int × String)))
  | [], examples =>
    if examples.isEmpty then .ok []
    else .ok [_handle_sentence examples]
  | l :: rest, examples =>
    if (pyStrip l).startsWith "-DOCSTART-" then readNerGo rest examples
    else if pyStrip l = "" then
      if examples.isEmpty then readNerGo rest []
      else
        match readNerGo rest [] with
        | .error e => .error e
        | .ok more => .ok (_handle_sentence examples :: more)
    else
      match pySplit '\t' (pyStrip l) with
      | [word, entity] => readNerGo rest (examples ++ [(word, entity)])
      | _ => .error .valueError

/-- `read_ner_from_tsv` from `data_util.py`, over the file's lines. -/
def read_ner_from_tsv (fileLines : List String) :
    Except PyError (List (String × List (Int × Int × String))) :=
  readNerGo fileLines []

/-- Words joined with single spaces (Python `" ".join(ws)`). -/
def joinSp : List String → String
  | [] => ""
  | [w] => w
  | w :: ws => w ++ " " ++ joinSp ws

/-- The raw sentence text built by `_handle_sentence` before the trailing
space is dropped: every word followed by one space. -/
def catSp : List (String × String) → String
  | [] => ""
  | (w, _) :: rest => w ++ " " ++ catSp rest

/-- The sum of `len(word) + 1` over the pairs: the final cursor value. -/
def lenSum : List (String × String) → Int
  | [] => 0
  | (w, _) :: rest => ((w.length : Int) + 1) + lenSum rest

/-- Modelled from the spec: the maximal runs of consecutively non-`"O"`
tagged words, each with the character position of its first word in the
space-joined sentence and the entity type taken from the run's opening
tag.  The second argument carries the run currently open, if any, with
its accumulated words in reverse order. -/
def runsPos : Int → Option (Int × String × List String) →
    List (String × String) → List (Int × String × List String)
  | _, none, [] => []
  | _, some (s, ty, acc), [] => [(s, ty, acc.reverse)]
  | pos, none, (w, t) :: rest =>
    if t ≠ "O" then
      runsPos (pos + ((w.length : Int) + 1)) (some (pos, pyUpper (pySliceFrom 2 t), [w])) rest
    else
      runsPos (pos + ((w.length : Int) + 1)) none rest
  | pos, some (s, ty, acc), (w, t) :: rest =>
    if t ≠ "O" then
      runsPos (pos + ((w.length : Int) + 1)) (some (s, ty, w :: acc)) rest
    else
      (s, ty, acc.reverse) :: runsPos (pos + ((w.length : Int) + 1)) none rest

/-- The span a run denotes: half-open offsets
`(start, start + len(" ".join(words)))` and the run's type. -/
def runSpan (r : Int × String × List String) : Int × Int × String :=
  (r.1, r.1 + ((joinSp r.2.2).length : Int), r.2.1)

deriving instance DecidableEq for Except

/-- A small resolved directory: a two-document corpus, the first pubmed
id in the train list, the second in the dev list. -/
def mmDirA : List (String × List String) :=
  [("corpus_pubtator.txt", ["1|t|T", "1|a|A", "", "2|t|U", "2|a|B"]),
   ("corpus_pubtator_pmids_trng.txt", ["1"]),
   ("corpus_pubtator_pmids_dev.txt", ["2"]),
   ("corpus_pubtator_pmids_test.txt", [])]

/-- A small resolved directory whose single document has one entity of
mention type `"T9"` and a pubmed id (`"1"`) in none of the id lists. -/
def mmDirB : List (String × List String) :=
  [("corpus_pubtator.txt", ["1|t|T", "1|a|A", "1\t0\t1\tT\tT9\tC1"]),
   ("corpus_pubtator_pmids_trng.txt", ["2"]),
   ("corpus_pubtator_pmids_dev.txt", []),
   ("corpus_pubtator_pmids_test.txt", [])]

/-- The parsed documents of `mmDirA`'s corpus. -/
def mmExsA : List MedMentionExample :=
  [⟨"T", "A", "T A", "1", []⟩, ⟨"U", "B", "U B", "2", []⟩]

/-- The parsed document of `mmDirB`'s corpus. -/
def mmExB : MedMentionExample :=
  ⟨"T", "A", "T A", "1", [⟨0, 1, "T", "T9", "C1"⟩]⟩

/-- `splitChar` never returns the empty list of segments. -/
theorem splitChar_ne_nil (sep : Char) (l : List Char) : splitChar sep l ≠ [] := by
  induction l with
  | nil => simp [splitChar]
  | cons c rest ih =>
    simp only [splitChar]
    split
    · simp
    · cases h : splitChar sep rest with
      | nil => simp
      | cons g gs => simp [h]

/-- The first segment of `splitChar` never contains the separator. -/
theorem splitChar_head_no_sep (sep : Char) (l : List Char) :
    ∃ g gs, splitChar sep l = g :: gs ∧ sep ∉ g := by
  induction l with
  | nil => exact ⟨[], [], rfl, by simp⟩
  | cons c rest ih =>
    obtain ⟨g, gs, hgs, hng⟩ := ih
    by_cases hc : c = sep
    · exact ⟨[], splitChar sep rest, by simp [splitChar, hc], by simp⟩
    · refine ⟨c :: g, gs, ?_, ?_⟩
      · simp [splitChar, hc, hgs]
      · simp only [List.mem_cons, not_or]
        exact ⟨fun h => hc h.symm, hng⟩

/-- Every element produced by a successful `mapExcept` comes from a
successful application of the function to some element of the input. -/
theorem mapExcept_ok_mem {α β : Type} (f : α → Except PyError β) :
    ∀ (l : List α) (ys : List β), mapExcept f l = .ok ys →
      ∀ y ∈ ys, ∃ x ∈ l, f x = .ok y := by
  intro l
  induction l with
  | nil =>
    intro ys h y hy
    simp only [mapExcept] at h
    cases h
    simp at hy
  | cons x xs ih =>
    intro ys h y hy
    simp only [mapExcept] at h
    cases hx : f x with
    | error e => rw [hx] at h; cases h
    | ok z =>
      rw [hx] at h
      cases hxs : mapExcept f xs with
      | error e => rw [hxs] at h; cases h
      | ok zs =>
        rw [hxs] at h
        cases h
        rcases List.mem_cons.mp hy with hy | hy
        · exact ⟨x, List.mem_cons_self x xs, by rw [hx, hy]⟩
        · obtain ⟨x', hx', hfx'⟩ := ih zs hxs y hy
          exact ⟨x', List.mem_cons_of_mem x hx', hfx'⟩

/-- A successful `mapExcept` means the function succeeded on every
element of the input. -/
theorem mapExcept_ok_forall {α β : Type} (f : α → Except PyError β) :
    ∀ (l : List α) (ys : List β), mapExcept f l = .ok ys →
      ∀ x ∈ l, ∃ y, f x = .ok y := by
  intro l
  induction l with
  | nil => intro ys _ x hx; simp at hx
  | cons a as ih =>
    intro ys h x hx
    simp only [mapExcept] at h
    cases ha : f a with
    | error e => rw [ha] at h; cases h
    | ok z =>
      rw [ha] at h
      cases has : mapExcept f as with
      | error e => rw [has] at h; cases h
      | ok zs =>
        rcases List.mem_cons.mp hx with hx | hx
        · exact ⟨z, by rw [hx, ha]⟩
        · exact ih zs has x hx

/-- The first element of a Python single-character split never contains
the separator. -/
theorem headD_pySplit_no_sep (sep : Char) (s : String) :
    sep ∉ ((pySplit sep s).headD "").data := by
  obtain ⟨g, gs, hgs, hng⟩ := splitChar_head_no_sep sep s.data
  simpa [pySplit, hgs] using hng

/-- A parsed annotation line's `mention_type` contains no comma. -/
theorem processEntityLine_no_comma (line : String) (ent : MedMentionEntity)
    (h : processEntityLine line = .ok ent) : ',' ∉ ent.mention_type.data := by
  unfold processEntityLine at h
  split at h
  · split at h
    · cases h
    · split at h
      · cases h
      · cases h
        exact headD_pySplit_no_sep ',' _
  · cases h


/-- Inverting a successful `process_example`: the record's `text` is
`title + " " + abstract`, and its entities are the successfully parsed
annotation lines. -/
theorem process_example_ok_shape (lines : List String) (ex : MedMentionExample)
    (h : process_example lines = Except.ok ex) :
    ex.text = ex.title ++ " " ++ ex.abstract
    ∧ mapExcept processEntityLine (lines.drop 2) = Except.ok ex.entities := by
  unfold process_example at h
  repeat' split at h
  all_goals cases h
  exact ⟨rfl, by assumption⟩

/-- C1 (amended): on the BIO input
`[("John","B-PER"),("Smith","I-PER"),("died","O")]` the BIO Sentence
Converter returns the sentence `"John Smith died"` and the entity list
exactly `[(0, 10, "PER")]`: the span closes at the cursor before
`"died"` (11) minus one, the half-open end of `"John Smith"`. -/
theorem handle_sentence_john_smith :
    _handle_sentence [("John", "B-PER"), ("Smith", "I-PER"), ("died", "O")]
      = ("John Smith died", [(0, 10, "PER")]) := by decide

/-- C1, counterexample to the claimed entity list: the converter does not
return `[(0, 9, "PER")]` on that input. -/
theorem handle_sentence_john_smith_ne_spec :
    (_handle_sentence [("John", "B-PER"), ("Smith", "I-PER"), ("died", "O")]).2
      ≠ [(0, 9, "PER")] := by decide

/-- C2 (amended): a resolved directory missing any of the four files the
Corpus Splitter actually opens (the corpus file and the train/dev/test
pmid lists) makes `read_full_med_mentions` fail with a
`FileNotFoundError`; `corpus_pubtator_pmids_all.txt` is never opened. -/
theorem read_full_missing_file_error (fs : List (String × List String))
    (lm : Option (List (String × String))) (so sf : Bool)
    (h : lookupFile fs "corpus_pubtator.txt" = none
       ∨ lookupFile fs "corpus_pubtator_pmids_trng.txt" = none
       ∨ lookupFile fs "corpus_pubtator_pmids_dev.txt" = none
       ∨ lookupFile fs "corpus_pubtator_pmids_test.txt" = none) :
    ∃ name, read_full_med_mentions fs lm so sf
      = Except.error (PyError.fileNotFound name) := by
  cases htr : lookupFile fs "corpus_pubtator_pmids_trng.txt" with
  | none =>
    exact ⟨"corpus_pubtator_pmids_trng.txt",
      by simp [read_full_med_mentions, openFile, htr]⟩
  | some trL =>
    cases hdv : lookupFile fs "corpus_pubtator_pmids_dev.txt" with
    | none =>
      exact ⟨"corpus_pubtator_pmids_dev.txt",
        by simp [read_full_med_mentions, openFile, htr, hdv]⟩
    | some dvL =>
      cases hte : lookupFile fs "corpus_pubtator_pmids_test.txt" with
      | none =>
        exact ⟨"corpus_pubtator_pmids_test.txt",
          by simp [read_full_med_mentions, openFile, htr, hdv, hte]⟩
      | some teL =>
        cases hco : lookupFile fs "corpus_pubtator.txt" with
        | none =>
          exact ⟨"corpus_pubtator.txt",
            by simp [read_full_med_mentions, openFile, htr, hdv, hte, hco]⟩
        | some coL =>
          rcases h with h | h | h | h
          · rw [hco] at h; cases h
          · rw [htr] at h; cases h
          · rw [hdv] at h; cases h
          · rw [hte] at h; cases h

/-- C2, witness for the amended theorem: an empty directory. -/
theorem read_full_missing_file_error_witness :
    (lookupFile [] "corpus_pubtator.txt" = none
       ∨ lookupFile [] "corpus_pubtator_pmids_trng.txt" = none
       ∨ lookupFile [] "corpus_pubtator_pmids_dev.txt" = none
       ∨ lookupFile [] "corpus_pubtator_pmids_test.txt" = none)
    ∧ ∃ name, read_full_med_mentions [] none false true
        = Except.error (PyError.fileNotFound name) :=
  ⟨Or.inl (by decide),
   read_full_missing_file_error [] none false true (Or.inl (by decide))⟩

/-- C2, counterexample to the five-file claim: a directory holding the
corpus and the three train/dev/test pmid files but missing
`corpus_pubtator_pmids_all.txt` does not fail — the call succeeds. -/
theorem read_full_no_pmids_all_succeeds :
    lookupFile [("corpus_pubtator.txt", ["1|t|T", "1|a|A"]),
        ("corpus_pubtator_pmids_trng.txt", ["1"]),
        ("corpus_pubtator_pmids_dev.txt", []),
        ("corpus_pubtator_pmids_test.txt", [])]
      "corpus_pubtator_pmids_all.txt" = none
    ∧ read_full_med_mentions [("corpus_pubtator.txt", ["1|t|T", "1|a|A"]),
        ("corpus_pubtator_pmids_trng.txt", ["1"]),
        ("corpus_pubtator_pmids_dev.txt", []),
        ("corpus_pubtator_pmids_test.txt", [])] none false true
      = Except.ok ([MMOut.spacy "T A" []], [], []) := by decide

/-- C3 (amended): in every record accepted by the Record Parser, every
entity's `mention_type` contains no comma; the offsets are taken from the
file as-is, with no `0 ≤ start ≤ end` check. -/
theorem process_example_mention_type_no_comma (lines : List String)
    (ex : MedMentionExample) (h : process_example lines = Except.ok ex) :
    ∀ ent ∈ ex.entities, ',' ∉ ent.mention_type.data := by
  intro ent hent
  obtain ⟨-, hmap⟩ := process_example_ok_shape lines ex h
  obtain ⟨line, -, hline⟩ :=
    mapExcept_ok_mem processEntityLine (lines.drop 2) ex.entities hmap ent hent
  exact processEntityLine_no_comma line ent hline

/-- C3, witness for the amended theorem: the Scenario 1 block. -/
theorem process_example_mention_type_no_comma_witness :
    process_example ["1|t|Cancer", "1|a|Cancer is bad.",
        "1\t0\t6\tCancer\tT191,T192\tC0006826"]
      = Except.ok ⟨"Cancer", "Cancer is bad.", "Cancer Cancer is bad.", "1",
          [⟨0, 6, "Cancer", "T191", "C0006826"⟩]⟩
    ∧ ∀ ent ∈ (⟨"Cancer", "Cancer is bad.", "Cancer Cancer is bad.", "1",
          [⟨0, 6, "Cancer", "T191", "C0006826"⟩]⟩ : MedMentionExample).entities,
        ',' ∉ ent.mention_type.data :=
  ⟨by decide, process_example_mention_type_no_comma
    ["1|t|Cancer", "1|a|Cancer is bad.", "1\t0\t6\tCancer\tT191,T192\tC0006826"]
    ⟨"Cancer", "Cancer is bad.", "Cancer Cancer is bad.", "1",
      [⟨0, 6, "Cancer", "T191", "C0006826"⟩]⟩ (by decide)⟩

/-- C3, counterexample to the offset part of the claim: the parser
accepts a block whose annotation line states `start = 6 > 0 = end`, so
`start ≤ end` does not hold for every accepted block. -/
theorem process_example_accepts_start_gt_end :
    process_example ["1|t|T", "1|a|A", "1\t6\t0\tX\tT1\tC1"]
      = Except.ok ⟨"T", "A", "T A", "1", [⟨6, 0, "X", "T1", "C1"⟩]⟩
    ∧ ¬ ((6 : Int) ≤ 0) := by decide

/-- C8: for every block accepted by the PubTator Record Parser, the
record's `text` is exactly `title + " " + abstract`, one joining space. -/
theorem process_example_text_join (lines : List String)
    (ex : MedMentionExample) (h : process_example lines = Except.ok ex) :
    ex.text = ex.title ++ " " ++ ex.abstract :=
  (process_example_ok_shape lines ex h).1

/-- C8, witness: the Scenario 1 block. -/
theorem process_example_text_join_witness :
    process_example ["1|t|Cancer", "1|a|Cancer is bad.",
        "1\t0\t6\tCancer\tT191,T192\tC0006826"]
      = Except.ok ⟨"Cancer", "Cancer is bad.", "Cancer Cancer is bad.", "1",
          [⟨0, 6, "Cancer", "T191", "C0006826"⟩]⟩
    ∧ (⟨"Cancer", "Cancer is bad.", "Cancer Cancer is bad.", "1",
          [⟨0, 6, "Cancer", "T191", "C0006826"⟩]⟩ : MedMentionExample).text
      = (⟨"Cancer", "Cancer is bad.", "Cancer Cancer is bad.", "1",
          [⟨0, 6, "Cancer", "T191", "C0006826"⟩]⟩ : MedMentionExample).title
        ++ " "
        ++ (⟨"Cancer", "Cancer is bad.", "Cancer Cancer is bad.", "1",
          [⟨0, 6, "Cancer", "T191", "C0006826"⟩]⟩ : MedMentionExample).abstract :=
  ⟨by decide, process_example_text_join
    ["1|t|Cancer", "1|a|Cancer is bad.", "1\t0\t6\tCancer\tT191,T192\tC0006826"]
    ⟨"Cancer", "Cancer is bad.", "Cancer Cancer is bad.", "1",
      [⟨0, 6, "Cancer", "T191", "C0006826"⟩]⟩ (by decide)⟩

/-- C9: a blank corpus line met with the line buffer empty (a blank first
line, or the line after a block-terminating blank line) makes the
PubTator Stream Iterator call the Record Parser on the empty buffer,
which fails with an `IndexError` on line 0 — while the BIO Stream
Reader's loop skips the flush entirely when its buffer is empty. -/
theorem empty_block_index_error_vs_bio_skip (l : String)
    (restP restB : List String) (h : pyStrip l = "") :
    mmIterGo (l :: restP) [] = Except.error PyError.indexError
    ∧ process_example [] = Except.error PyError.indexError
    ∧ readNerGo (l :: restB) [] = readNerGo restB [] := by
  refine ⟨?_, rfl, ?_⟩
  · simp [mmIterGo, h, process_example]
  · simp [readNerGo, h]

/-- C9, witness: a file whose first line is blank. -/
theorem empty_block_index_error_vs_bio_skip_witness :
    pyStrip "" = ""
    ∧ (mmIterGo ["", "x"] [] = Except.error PyError.indexError
       ∧ process_example [] = Except.error PyError.indexError
       ∧ readNerGo ["", "x\tO"] [] = readNerGo ["x\tO"] []) :=
  ⟨by decide, empty_block_index_error_vs_bio_skip "" ["x"] ["x\tO"] (by decide)⟩

/-- A `mapExcept` error is produced by the function on some input element. -/
theorem mapExcept_error_mem {α β : Type} (f : α → Except PyError β) :
    ∀ (l : List α) (err : PyError), mapExcept f l = .error err →
      ∃ x ∈ l, f x = .error err := by
  intro l
  induction l with
  | nil => intro err h; simp only [mapExcept] at h; cases h
  | cons a as ih =>
    intro err h
    simp only [mapExcept] at h
    cases ha : f a with
    | error e => rw [ha] at h; cases h; exact ⟨a, List.mem_cons_self a as, ha⟩
    | ok z =>
      rw [ha] at h
      cases has : mapExcept f as with
      | error e =>
        rw [has] at h; cases h
        obtain ⟨x, hx, hfx⟩ := ih err has
        exact ⟨x, List.mem_cons_of_mem a hx, hfx⟩
      | ok zs => rw [has] at h; cases h

/-- `label_function` fails only with a `KeyError`. -/
theorem label_function_error_shape (so : Bool)
    (lm : Option (List (String × String))) (label : String) (err : PyError)
    (h : label_function so lm label = .error err) : ∃ k, err = .keyError k := by
  unfold label_function at h
  split at h
  · cases h
  · split at h
    · cases h
    · split at h
      · cases h
      · cases h; exact ⟨label, rfl⟩

/-- The spacy-entity computation fails only with a `KeyError`. -/
theorem mkSpacyEntities_error_shape (so : Bool)
    (lm : Option (List (String × String))) (ents : List MedMentionEntity)
    (err : PyError) (h : mkSpacyEntities so lm ents = .error err) :
    ∃ k, err = .keyError k := by
  obtain ⟨x, -, hx⟩ := mapExcept_error_mem _ ents err h
  cases hl : label_function so lm x.mention_type with
  | error e =>
    obtain ⟨k, hk⟩ := label_function_error_shape so lm x.mention_type e hl
    refine ⟨k, ?_⟩
    rw [hl] at hx
    cases hx
    exact hk
  | ok v => rw [hl] at hx; cases hx

/-- The spacy-entity computation cannot succeed when an entity's mention
type is absent from the supplied mapping (and `span_only` is unset). -/
theorem mkSpacyEntities_missing_key_not_ok (m : List (String × String))
    (ents : List MedMentionEntity) (x : MedMentionEntity) (hx : x ∈ ents)
    (hm : m.find? (fun p => p.1 = x.mention_type) = none)
    (ys : List (Int × Int × String)) :
    mkSpacyEntities false (some m) ents ≠ .ok ys := by
  intro h
  obtain ⟨y, hy⟩ := mapExcept_ok_forall _ ents ys h x hx
  rw [show label_function false (some m) x.mention_type = .error (.keyError x.mention_type) by
    simp [label_function, hm]] at hy
  cases hy

/-- A successful `routeLoop` means the spacy entities were computed
successfully for every document, routed or not. -/
theorem routeLoop_ok_forall (so : Bool) (lm : Option (List (String × String)))
    (sf : Bool) (trIds dvIds teIds : List String) :
    ∀ (exs : List MedMentionExample) (acc v : List MMOut × List MMOut × List MMOut),
      routeLoop so lm sf trIds dvIds teIds exs acc = .ok v →
      ∀ e ∈ exs, ∃ ents, mkSpacyEntities so lm e.entities = .ok ents := by
  intro exs
  induction exs with
  | nil => intro acc v _ e he; simp at he
  | cons a as ih =>
    intro acc v h e he
    obtain ⟨tr0, dv0, te0⟩ := acc
    simp only [routeLoop] at h
    cases ha : mkSpacyEntities so lm a.entities with
    | error err => rw [ha] at h; cases h
    | ok ents =>
      simp only [ha] at h
      rcases List.mem_cons.mp he with he | he
      · exact ⟨ents, by rw [he, ha]⟩
      · by_cases h1 : a.pubmed_id ∈ trIds
        · rw [if_pos h1] at h; exact ih _ _ h e he
        · rw [if_neg h1] at h
          by_cases h2 : a.pubmed_id ∈ dvIds
          · rw [if_pos h2] at h; exact ih _ _ h e he
          · rw [if_neg h2] at h
            by_cases h3 : a.pubmed_id ∈ teIds
            · rw [if_pos h3] at h; exact ih _ _ h e he
            · rw [if_neg h3] at h; exact ih _ _ h e he

/-- A failing `routeLoop` fails because the spacy entities of some
document failed to compute. -/
theorem routeLoop_error_mem (so : Bool) (lm : Option (List (String × String)))
    (sf : Bool) (trIds dvIds teIds : List String) :
    ∀ (exs : List MedMentionExample) (acc : List MMOut × List MMOut × List MMOut)
      (err : PyError),
      routeLoop so lm sf trIds dvIds teIds exs acc = .error err →
      ∃ e ∈ exs, mkSpacyEntities so lm e.entities = .error err := by
  intro exs
  induction exs with
  | nil =>
    intro acc err h
    obtain ⟨tr0, dv0, te0⟩ := acc
    simp only [routeLoop] at h
    cases h
  | cons a as ih =>
    intro acc err h
    obtain ⟨tr0, dv0, te0⟩ := acc
    simp only [routeLoop] at h
    cases ha : mkSpacyEntities so lm a.entities with
    | error e0 =>
      rw [ha] at h
      cases h
      exact ⟨a, List.mem_cons_self a as, ha⟩
    | ok ents =>
      simp only [ha] at h
      have step : ∀ acc', routeLoop so lm sf trIds dvIds teIds as acc' = .error err →
          ∃ e ∈ a :: as, mkSpacyEntities so lm e.entities = .error err := by
        intro acc' h'
        obtain ⟨e, he, hee⟩ := ih acc' err h'
        exact ⟨e, List.mem_cons_of_mem a he, hee⟩
      by_cases h1 : a.pubmed_id ∈ trIds
      · rw [if_pos h1] at h; exact step _ h
      · rw [if_neg h1] at h
        by_cases h2 : a.pubmed_id ∈ dvIds
        · rw [if_pos h2] at h; exact step _ h
        · rw [if_neg h2] at h
          by_cases h3 : a.pubmed_id ∈ teIds
          · rw [if_pos h3] at h; exact step _ h
          · rw [if_neg h3] at h; exact step _ h

/-- Characterisation of a successful routing loop: each returned list is
the corresponding accumulator followed by the documents selected by the
train-first membership priority, formatted, in corpus order. -/
theorem routeLoop_ok_append (so : Bool) (lm : Option (List (String × String)))
    (sf : Bool) (trIds dvIds teIds : List String) :
    ∀ (exs : List MedMentionExample) (tr0 dv0 te0 tr dv te : List MMOut),
      routeLoop so lm sf trIds dvIds teIds exs (tr0, dv0, te0)
        = Except.ok (tr, dv, te) →
      tr = tr0 ++ (exs.filter (fun e => decide (e.pubmed_id ∈ trIds))).filterMap
              (fun e => (fmtEx so lm sf e).toOption)
      ∧ dv = dv0 ++ (exs.filter (fun e =>
              decide (e.pubmed_id ∉ trIds ∧ e.pubmed_id ∈ dvIds))).filterMap
              (fun e => (fmtEx so lm sf e).toOption)
      ∧ te = te0 ++ (exs.filter (fun e =>
              decide (e.pubmed_id ∉ trIds ∧ e.pubmed_id ∉ dvIds
                ∧ e.pubmed_id ∈ teIds))).filterMap
              (fun e => (fmtEx so lm sf e).toOption) := by
  intro exs
  induction exs with
  | nil =>
    intro tr0 dv0 te0 tr dv te h
    simp only [routeLoop] at h
    cases h
    simp
  | cons e rest ih =>
    intro tr0 dv0 te0 tr dv te h
    simp only [routeLoop] at h
    cases hents : mkSpacyEntities so lm e.entities with
    | error err => rw [hents] at h; cases h
    | ok ents =>
      simp only [hents] at h
      have hfmt : (fmtEx so lm sf e).toOption
          = some (if sf then MMOut.spacy e.text ents else MMOut.raw e) := by
        simp [fmtEx, hents, Except.map, Except.toOption]
      by_cases h1 : e.pubmed_id ∈ trIds
      · rw [if_pos h1] at h
        obtain ⟨htr, hdv, hte⟩ := ih _ _ _ _ _ _ h
        refine ⟨?_, ?_, ?_⟩
        · rw [htr]
          simp [List.filter_cons, List.filterMap_cons, h1, hfmt]
        · rw [hdv]
          simp [List.filter_cons, h1]
        · rw [hte]
          simp [List.filter_cons, h1]
      · rw [if_neg h1] at h
        by_cases h2 : e.pubmed_id ∈ dvIds
        · rw [if_pos h2] at h
          obtain ⟨htr, hdv, hte⟩ := ih _ _ _ _ _ _ h
          refine ⟨?_, ?_, ?_⟩
          · rw [htr]
            simp [List.filter_cons, h1]
          · rw [hdv]
            simp [List.filter_cons, List.filterMap_cons, h1, h2, hfmt]
          · rw [hte]
            simp [List.filter_cons, h1, h2]
        · rw [if_neg h2] at h
          by_cases h3 : e.pubmed_id ∈ teIds
          · rw [if_pos h3] at h
            obtain ⟨htr, hdv, hte⟩ := ih _ _ _ _ _ _ h
            refine ⟨?_, ?_, ?_⟩
            · rw [htr]
              simp [List.filter_cons, h1]
            · rw [hdv]
              simp [List.filter_cons, h1, h2]
            · rw [hte]
              simp [List.filter_cons, List.filterMap_cons, h1, h2, h3, hfmt]
          · rw [if_neg h3] at h
            obtain ⟨htr, hdv, hte⟩ := ih _ _ _ _ _ _ h
            refine ⟨?_, ?_, ?_⟩
            · rw [htr]
              simp [List.filter_cons, h1]
            · rw [hdv]
              simp [List.filter_cons, h1, h2]
            · rw [hte]
              simp [List.filter_cons, h1, h2, h3]

/-- With all four files present, the Corpus Splitter reduces to the
routing loop over the parsed corpus and the stripped id lists. -/
theorem read_full_reduces (fs : List (String × List String))
    (lm : Option (List (String × String))) (so sf : Bool)
    (trL dvL teL coL : List String) (exs : List MedMentionExample)
    (htr : lookupFile fs "corpus_pubtator_pmids_trng.txt" = some trL)
    (hdv : lookupFile fs "corpus_pubtator_pmids_dev.txt" = some dvL)
    (hte : lookupFile fs "corpus_pubtator_pmids_test.txt" = some teL)
    (hco : lookupFile fs "corpus_pubtator.txt" = some coL)
    (hex : med_mentions_example_iterator coL = Except.ok exs) :
    read_full_med_mentions fs lm so sf
      = routeLoop so lm sf (trL.map pyStrip) (dvL.map pyStrip)
          (teL.map pyStrip) exs ([], [], []) := by
  simp [read_full_med_mentions, openFile, htr, hdv, hte, hco, hex]

/-- C5: on a successful call, each parsed document lands in exactly the
list selected by membership priority train-then-dev-then-test (train
wins on overlap), documents in none of the id sets appear in no list,
and corpus order is preserved within each list: the three lists are
order-preserving filters of the parsed corpus. -/
theorem read_full_partition (fs : List (String × List String))
    (lm : Option (List (String × String))) (so sf : Bool)
    (trL dvL teL coL : List String) (exs : List MedMentionExample)
    (tr dv te : List MMOut)
    (htr : lookupFile fs "corpus_pubtator_pmids_trng.txt" = some trL)
    (hdv : lookupFile fs "corpus_pubtator_pmids_dev.txt" = some dvL)
    (hte : lookupFile fs "corpus_pubtator_pmids_test.txt" = some teL)
    (hco : lookupFile fs "corpus_pubtator.txt" = some coL)
    (hex : med_mentions_example_iterator coL = Except.ok exs)
    (h : read_full_med_mentions fs lm so sf = Except.ok (tr, dv, te)) :
    tr = (exs.filter (fun e => decide (e.pubmed_id ∈ trL.map pyStrip))).filterMap
          (fun e => (fmtEx so lm sf e).toOption)
    ∧ dv = (exs.filter (fun e => decide (e.pubmed_id ∉ trL.map pyStrip
            ∧ e.pubmed_id ∈ dvL.map pyStrip))).filterMap
          (fun e => (fmtEx so lm sf e).toOption)
    ∧ te = (exs.filter (fun e => decide (e.pubmed_id ∉ trL.map pyStrip
            ∧ e.pubmed_id ∉ dvL.map pyStrip
            ∧ e.pubmed_id ∈ teL.map pyStrip))).filterMap
          (fun e => (fmtEx so lm sf e).toOption) := by
  rw [read_full_reduces fs lm so sf trL dvL teL coL exs htr hdv hte hco hex] at h
  simpa using routeLoop_ok_append so lm sf _ _ _ exs [] [] [] tr dv te h

/-- C5, witness: the two-document directory `mmDirA` (one train doc, one
dev doc). -/
theorem read_full_partition_witness :
    lookupFile mmDirA "corpus_pubtator_pmids_trng.txt" = some ["1"]
    ∧ lookupFile mmDirA "corpus_pubtator_pmids_dev.txt" = some ["2"]
    ∧ lookupFile mmDirA "corpus_pubtator_pmids_test.txt" = some []
    ∧ lookupFile mmDirA "corpus_pubtator.txt"
        = some ["1|t|T", "1|a|A", "", "2|t|U", "2|a|B"]
    ∧ med_mentions_example_iterator ["1|t|T", "1|a|A", "", "2|t|U", "2|a|B"]
        = Except.ok mmExsA
    ∧ read_full_med_mentions mmDirA none false true
        = Except.ok ([MMOut.spacy "T A" []], [MMOut.spacy "U B" []], [])
    ∧ ([MMOut.spacy "T A" []]
        = (mmExsA.filter (fun e => decide (e.pubmed_id ∈ ["1"].map pyStrip))).filterMap
            (fun e => (fmtEx false none true e).toOption)
      ∧ [MMOut.spacy "U B" []]
        = (mmExsA.filter (fun e => decide (e.pubmed_id ∉ ["1"].map pyStrip
              ∧ e.pubmed_id ∈ ["2"].map pyStrip))).filterMap
            (fun e => (fmtEx false none true e).toOption)
      ∧ ([] : List MMOut)
        = (mmExsA.filter (fun e => decide (e.pubmed_id ∉ ["1"].map pyStrip
              ∧ e.pubmed_id ∉ ["2"].map pyStrip
              ∧ e.pubmed_id ∈ ([] : List String).map pyStrip))).filterMap
            (fun e => (fmtEx false none true e).toOption)) :=
  ⟨by decide, by decide, by decide, by decide, by decide, by decide,
   read_full_partition mmDirA none false true ["1"] ["2"] []
     ["1|t|T", "1|a|A", "", "2|t|U", "2|a|B"] mmExsA
     [MMOut.spacy "T A" []] [MMOut.spacy "U B" []] []
     (by decide) (by decide) (by decide) (by decide) (by decide) (by decide)⟩

/-- With a mapping supplied, `span_only` unset, and a document whose
entity's mention type is absent from the mapping, the whole call fails
with a `KeyError` — whatever the requested output format. -/
theorem read_full_missing_key_helper (fs : List (String × List String))
    (m : List (String × String)) (sf : Bool)
    (trL dvL teL coL : List String) (exs : List MedMentionExample)
    (e : MedMentionExample) (x : MedMentionEntity)
    (htr : lookupFile fs "corpus_pubtator_pmids_trng.txt" = some trL)
    (hdv : lookupFile fs "corpus_pubtator_pmids_dev.txt" = some dvL)
    (hte : lookupFile fs "corpus_pubtator_pmids_test.txt" = some teL)
    (hco : lookupFile fs "corpus_pubtator.txt" = some coL)
    (hex : med_mentions_example_iterator coL = Except.ok exs)
    (he : e ∈ exs) (hx : x ∈ e.entities)
    (hm : m.find? (fun p => p.1 = x.mention_type) = none) :
    ∃ k, read_full_med_mentions fs (some m) false sf
      = Except.error (PyError.keyError k) := by
  rw [read_full_reduces fs (some m) false sf trL dvL teL coL exs htr hdv hte hco hex]
  cases hr : routeLoop false (some m) sf (trL.map pyStrip) (dvL.map pyStrip)
      (teL.map pyStrip) exs ([], [], []) with
  | ok v =>
    obtain ⟨ents, hok⟩ := routeLoop_ok_forall _ _ _ _ _ _ exs _ v hr e he
    exact absurd hok (mkSpacyEntities_missing_key_not_ok m e.entities x hx hm ents)
  | error err =>
    obtain ⟨e', -, he'⟩ := routeLoop_error_mem _ _ _ _ _ _ exs _ err hr
    obtain ⟨k, hk⟩ := mkSpacyEntities_error_shape _ _ _ _ he'
    exact ⟨k, by rw [hk]⟩

/-- C7: if `label_mapping` is supplied, `span_only` is unset, and some
parsed document has an entity whose `mention_type` has no entry in the
mapping, the Corpus Splitter raises a `KeyError` and yields no example
for that record (the whole call returns no lists). -/
theorem read_full_label_mapping_missing_key (fs : List (String × List String))
    (m : List (String × String)) (sf : Bool)
    (trL dvL teL coL : List String) (exs : List MedMentionExample)
    (e : MedMentionExample) (x : MedMentionEntity)
    (htr : lookupFile fs "corpus_pubtator_pmids_trng.txt" = some trL)
    (hdv : lookupFile fs "corpus_pubtator_pmids_dev.txt" = some dvL)
    (hte : lookupFile fs "corpus_pubtator_pmids_test.txt" = some teL)
    (hco : lookupFile fs "corpus_pubtator.txt" = some coL)
    (hex : med_mentions_example_iterator coL = Except.ok exs)
    (he : e ∈ exs) (hx : x ∈ e.entities)
    (hm : m.find? (fun p => p.1 = x.mention_type) = none) :
    ∃ k, read_full_med_mentions fs (some m) false sf
      = Except.error (PyError.keyError k) :=
  read_full_missing_key_helper fs m sf trL dvL teL coL exs e x
    htr hdv hte hco hex he hx hm

/-- C7, witness: `mmDirB` with the mapping `[("T5", "X")]`, missing the
observed type `"T9"`. -/
theorem read_full_label_mapping_missing_key_witness :
    lookupFile mmDirB "corpus_pubtator_pmids_trng.txt" = some ["2"]
    ∧ lookupFile mmDirB "corpus_pubtator_pmids_dev.txt" = some []
    ∧ lookupFile mmDirB "corpus_pubtator_pmids_test.txt" = some []
    ∧ lookupFile mmDirB "corpus_pubtator.txt"
        = some ["1|t|T", "1|a|A", "1\t0\t1\tT\tT9\tC1"]
    ∧ med_mentions_example_iterator ["1|t|T", "1|a|A", "1\t0\t1\tT\tT9\tC1"]
        = Except.ok [mmExB]
    ∧ mmExB ∈ [mmExB]
    ∧ (⟨0, 1, "T", "T9", "C1"⟩ : MedMentionEntity) ∈ mmExB.entities
    ∧ [("T5", "X")].find?
        (fun p => p.1 = (⟨0, 1, "T", "T9", "C1"⟩ : MedMentionEntity).mention_type)
        = none
    ∧ ∃ k, read_full_med_mentions mmDirB (some [("T5", "X")]) false true
        = Except.error (PyError.keyError k) :=
  ⟨by decide, by decide, by decide, by decide, by decide, by decide, by decide,
   by decide,
   read_full_label_mapping_missing_key mmDirB [("T5", "X")] true ["2"] [] []
     ["1|t|T", "1|a|A", "1\t0\t1\tT\tT9\tC1"] [mmExB] mmExB ⟨0, 1, "T", "T9", "C1"⟩
     (by decide) (by decide) (by decide) (by decide) (by decide) (by decide)
     (by decide) (by decide)⟩

/-- C10: the label function is applied to every parsed document before
any membership test and regardless of the output-format flag, so a
mention type absent from a supplied mapping aborts the whole call with a
`KeyError` even when the document's pubmed id is in none of the three id
sets and raw records (`spacy_format = False`) were requested. -/
theorem read_full_keyerror_before_membership (fs : List (String × List String))
    (m : List (String × String))
    (trL dvL teL coL : List String) (exs : List MedMentionExample)
    (e : MedMentionExample) (x : MedMentionEntity)
    (htr : lookupFile fs "corpus_pubtator_pmids_trng.txt" = some trL)
    (hdv : lookupFile fs "corpus_pubtator_pmids_dev.txt" = some dvL)
    (hte : lookupFile fs "corpus_pubtator_pmids_test.txt" = some teL)
    (hco : lookupFile fs "corpus_pubtator.txt" = some coL)
    (hex : med_mentions_example_iterator coL = Except.ok exs)
    (he : e ∈ exs) (hx : x ∈ e.entities)
    (hm : m.find? (fun p => p.1 = x.mention_type) = none)
    (hnt : e.pubmed_id ∉ trL.map pyStrip)
    (hnd : e.pubmed_id ∉ dvL.map pyStrip)
    (hnte : e.pubmed_id ∉ teL.map pyStrip) :
    ∃ k, read_full_med_mentions fs (some m) false false
      = Except.error (PyError.keyError k) :=
  read_full_missing_key_helper fs m false trL dvL teL coL exs e x
    htr hdv hte hco hex he hx hm

/-- C10, witness: `mmDirB`, whose only document's pubmed id `"1"` is in
none of the id lists, with raw records requested. -/
theorem read_full_keyerror_before_membership_witness :
    lookupFile mmDirB "corpus_pubtator_pmids_trng.txt" = some ["2"]
    ∧ lookupFile mmDirB "corpus_pubtator_pmids_dev.txt" = some []
    ∧ lookupFile mmDirB "corpus_pubtator_pmids_test.txt" = some []
    ∧ lookupFile mmDirB "corpus_pubtator.txt"
        = some ["1|t|T", "1|a|A", "1\t0\t1\tT\tT9\tC1"]
    ∧ med_mentions_example_iterator ["1|t|T", "1|a|A", "1\t0\t1\tT\tT9\tC1"]
        = Except.ok [mmExB]
    ∧ mmExB ∈ [mmExB]
    ∧ (⟨0, 1, "T", "T9", "C1"⟩ : MedMentionEntity) ∈ mmExB.entities
    ∧ [("T5", "X")].find?
        (fun p => p.1 = (⟨0, 1, "T", "T9", "C1"⟩ : MedMentionEntity).mention_type)
        = none
    ∧ mmExB.pubmed_id ∉ (["2"].map pyStrip)
    ∧ mmExB.pubmed_id ∉ (([] : List String).map pyStrip)
    ∧ mmExB.pubmed_id ∉ (([] : List String).map pyStrip)
    ∧ ∃ k, read_full_med_mentions mmDirB (some [("T5", "X")]) false false
        = Except.error (PyError.keyError k) :=
  ⟨by decide, by decide, by decide, by decide, by decide, by decide, by decide,
   by decide, by decide, by decide, by decide,
   read_full_keyerror_before_membership mmDirB [("T5", "X")] ["2"] [] []
     ["1|t|T", "1|a|A", "1\t0\t1\tT\tT9\tC1"] [mmExB] mmExB ⟨0, 1, "T", "T9", "C1"⟩
     (by decide) (by decide) (by decide) (by decide) (by decide) (by decide)
     (by decide) (by decide) (by decide) (by decide) (by decide)⟩

/-- String concatenation concatenates the character lists. -/
theorem strData_append (a b : String) : (a ++ b).data = a.data ++ b.data := rfl

/-- Every branch of `hsStep` appends the word and a space to the sentence. -/
theorem hsStep_sent (st : HSState) (p : String × String) :
    (hsStep st p).sent = st.sent ++ p.1 ++ " " := by
  simp only [hsStep]
  repeat' split
  all_goals rfl

/-- Every branch of `hsStep` advances the cursor by `len(word) + 1`. -/
theorem hsStep_current (st : HSState) (p : String × String) :
    (hsStep st p).current_index = st.current_index + ((p.1.length : Int) + 1) := by
  simp only [hsStep]
  repeat' split
  all_goals rfl

/-- After the loop, the sentence is the starting sentence followed by
every word and a trailing space. -/
theorem hsFold_sent : ∀ (ex : List (String × String)) (st : HSState),
    (List.foldl hsStep st ex).sent.data = st.sent.data ++ (catSp ex).data := by
  intro ex
  induction ex with
  | nil => intro st; simp [catSp]
  | cons p rest ih =>
    intro st
    obtain ⟨w, t⟩ := p
    rw [List.foldl_cons, ih, hsStep_sent]
    simp [catSp, strData_append]

/-- After the loop, the cursor advanced by the summed word lengths. -/
theorem hsFold_current : ∀ (ex : List (String × String)) (st : HSState),
    (List.foldl hsStep st ex).current_index = st.current_index + lenSum ex := by
  intro ex
  induction ex with
  | nil => intro st; simp [lenSum]
  | cons p rest ih =>
    intro st
    obtain ⟨w, t⟩ := p
    rw [List.foldl_cons, ih, hsStep_current]
    simp [lenSum]
    ring

/-- Joining after appending one more word: a separating space appears
exactly when the front is non-empty. -/
theorem joinSp_concat (l : List String) (w : String) (h : l ≠ []) :
    joinSp (l ++ [w]) = joinSp l ++ " " ++ w := by
  induction l with
  | nil => cases h rfl
  | cons a as ih =>
    cases as with
    | nil => simp [joinSp]
    | cons b bs =>
      have hih := ih (by simp)
      rw [List.cons_append] at hih
      show joinSp (a :: ((b :: bs) ++ [w])) = joinSp (a :: b :: bs) ++ " " ++ w
      rw [List.cons_append]
      simp only [joinSp]
      rw [hih]
      simp [String.append_assoc]

/-- Length of a join after appending one more word. -/
theorem joinSp_concat_length (l : List String) (w : String) (h : l ≠ []) :
    (joinSp (l ++ [w])).length = (joinSp l).length + 1 + w.length := by
  rw [joinSp_concat l w h, String.length_append, String.length_append]
  rfl

/-- The raw loop text of a cons, at the character level. -/
theorem catSp_cons_data (w t : String) (rest : List (String × String)) :
    (catSp ((w, t) :: rest)).data = w.data ++ ' ' :: (catSp rest).data := by
  simp [catSp, strData_append]

/-- The raw loop text is the joined words plus one trailing space. -/
theorem catSp_eq_joinSp_data : ∀ (ex : List (String × String)), ex ≠ [] →
    (catSp ex).data = (joinSp (ex.map Prod.fst)).data ++ [' '] := by
  intro ex
  induction ex with
  | nil => intro h; cases h rfl
  | cons p rest ih =>
    intro _
    obtain ⟨w, t⟩ := p
    cases rest with
    | nil => simp [catSp, joinSp, strData_append]
    | cons q qs =>
      rw [catSp_cons_data, ih (by simp)]
      obtain ⟨x, u⟩ := q
      simp [joinSp, strData_append]

/-- The heart of the converter: starting outside an entity, the spans
produced (including the end-of-sentence close) are exactly the maximal
non-`"O"` runs from the current cursor; starting inside an entity whose
accumulated words are consistent with the cursor, likewise with the
pending run. -/
theorem hsFold_entities : ∀ (ex : List (String × String)),
    (∀ (pos : Int) (ents : List (Int × Int × String)) (sent : String),
      hsClose (List.foldl hsStep ⟨-1, pos, false, "", sent, ents⟩ ex)
        = ents ++ (runsPos pos none ex).map runSpan)
    ∧ (∀ (s : Int) (ty : String) (acc : List String) (pos : Int)
        (ents : List (Int × Int × String)) (sent : String), acc ≠ [] →
        pos = s + ((joinSp acc.reverse).length : Int) + 1 →
        hsClose (List.foldl hsStep ⟨s, pos, true, ty, sent, ents⟩ ex)
          = ents ++ (runsPos pos (some (s, ty, acc)) ex).map runSpan) := by
  intro ex
  induction ex with
  | nil =>
    constructor
    · intro pos ents sent
      simp [hsClose, runsPos]
    · intro s ty acc pos ents sent hacc hpos
      have hval : pos - 1 = s + ((joinSp acc.reverse).length : Int) := by omega
      simp [hsClose, runsPos, runSpan, hval]
  | cons p rest ih =>
    obtain ⟨hnone, hsome⟩ := ih
    obtain ⟨w, t⟩ := p
    constructor
    · intro pos ents sent
      rw [List.foldl_cons]
      by_cases ht : t = "O"
      · have hstep : hsStep ⟨-1, pos, false, "", sent, ents⟩ (w, t)
            = ⟨-1, pos + ((w.length : Int) + 1), false, "", sent ++ w ++ " ", ents⟩ := by
          simp [hsStep, ht]
        rw [hstep, hnone]
        simp [runsPos, ht]
      · have hstep : hsStep ⟨-1, pos, false, "", sent, ents⟩ (w, t)
            = ⟨pos, pos + ((w.length : Int) + 1), true, pyUpper (pySliceFrom 2 t),
               sent ++ w ++ " ", ents⟩ := by
          simp [hsStep, ht]
        have hpos1 : pos + ((w.length : Int) + 1)
            = pos + ((joinSp [w].reverse).length : Int) + 1 := by
          simp [joinSp]
          omega
        rw [hstep, hsome pos (pyUpper (pySliceFrom 2 t)) [w]
          (pos + ((w.length : Int) + 1)) ents (sent ++ w ++ " ") (by simp) hpos1]
        simp [runsPos, ht]
    · intro s ty acc pos ents sent hacc hpos
      rw [List.foldl_cons]
      by_cases ht : t = "O"
      · have hstep : hsStep ⟨s, pos, true, ty, sent, ents⟩ (w, t)
            = ⟨-1, pos + ((w.length : Int) + 1), false, "", sent ++ w ++ " ",
               ents ++ [(s, pos - 1, ty)]⟩ := by
          simp [hsStep, ht]
        have hval : pos - 1 = s + ((joinSp acc.reverse).length : Int) := by omega
        rw [hstep, hnone]
        simp [runsPos, ht, runSpan, hval, List.append_assoc]
      · have hstep : hsStep ⟨s, pos, true, ty, sent, ents⟩ (w, t)
            = ⟨s, pos + ((w.length : Int) + 1), true, ty, sent ++ w ++ " ", ents⟩ := by
          simp [hsStep, ht]
        have hlen : (joinSp ((w :: acc).reverse)).length
            = (joinSp acc.reverse).length + 1 + w.length := by
          rw [List.reverse_cons]
          exact joinSp_concat_length acc.reverse w (by simp [hacc])
        have hpos1 : pos + ((w.length : Int) + 1)
            = s + ((joinSp ((w :: acc).reverse)).length : Int) + 1 := by
          rw [hlen]
          push_cast
          omega
        rw [hstep, hsome s ty (w :: acc) (pos + ((w.length : Int) + 1)) ents
          (sent ++ w ++ " ") (by simp) hpos1]
        simp [runsPos, ht]

/-- Every run reported by `runsPos` denotes a half-open slice of the
full loop text (`P` is the text already consumed) that spells exactly
the run's words joined with single spaces, and the slice ends strictly
before the end of the text (the trailing space follows it). -/
theorem runsPos_slice : ∀ (ex : List (String × String)) (P : List Char),
    (∀ r ∈ runsPos (P.length : Int) none ex,
      0 ≤ r.1
      ∧ r.1.toNat + (joinSp r.2.2).length < (P ++ (catSp ex).data).length
      ∧ ((P ++ (catSp ex).data).drop r.1.toNat).take (joinSp r.2.2).length
          = (joinSp r.2.2).data)
    ∧ (∀ (s : Int) (ty : String) (acc : List String), acc ≠ [] → 0 ≤ s →
        s + ((joinSp acc.reverse).length : Int) + 1 = (P.length : Int) →
        P.drop s.toNat = (joinSp acc.reverse).data ++ [' '] →
        ∀ r ∈ runsPos (P.length : Int) (some (s, ty, acc)) ex,
          0 ≤ r.1
          ∧ r.1.toNat + (joinSp r.2.2).length < (P ++ (catSp ex).data).length
          ∧ ((P ++ (catSp ex).data).drop r.1.toNat).take (joinSp r.2.2).length
              = (joinSp r.2.2).data) := by
  intro ex
  induction ex with
  | nil =>
    intro P
    have hnil : (catSp []).data = ([] : List Char) := rfl
    constructor
    · intro r hr
      simp [runsPos] at hr
    · intro s ty acc hacc hs hlen hdrop r hr
      simp only [runsPos, List.mem_singleton] at hr
      subst hr
      dsimp only
      have hJ : (joinSp acc.reverse).length = (joinSp acc.reverse).data.length := rfl
      refine ⟨hs, ?_, ?_⟩
      · rw [hnil, List.append_nil]
        omega
      · rw [hnil, List.append_nil, hdrop, hJ, List.take_left]
  | cons p rest ih =>
    intro P
    obtain ⟨w, t⟩ := p
    have hw : w.data.length = w.length := rfl
    have hfull : P ++ (catSp ((w, t) :: rest)).data
        = (P ++ w.data ++ [' ']) ++ (catSp rest).data := by
      rw [catSp_cons_data]
      simp [List.append_assoc]
    have hP'n : (P ++ w.data ++ [' ']).length = P.length + w.length + 1 := by
      simp [List.length_append]
      omega
    have hP' : (((P ++ w.data ++ [' ']).length : Nat) : Int)
        = (P.length : Int) + ((w.length : Int) + 1) := by
      rw [hP'n]
      push_cast
      ring
    have hjw : joinSp ([w].reverse) = w := by simp [joinSp]
    have hdropP' : (P ++ w.data ++ [' ']).drop P.length = w.data ++ [' '] := by
      rw [List.append_assoc]
      exact List.drop_left P (w.data ++ [' '])
    constructor
    · intro r hr
      by_cases ht : t = "O"
      · simp only [runsPos, ht, ne_eq, not_true_eq_false, if_false] at hr
        obtain ⟨ih1, -⟩ := ih (P ++ w.data ++ [' '])
        have hres := ih1 r (by rw [hP']; exact hr)
        rwa [hfull]
      · simp only [runsPos, if_pos ht] at hr
        obtain ⟨-, ih2⟩ := ih (P ++ w.data ++ [' '])
        have hres := ih2 (P.length : Int) (pyUpper (pySliceFrom 2 t)) [w]
          (by simp) (Int.natCast_nonneg P.length)
          (by rw [hjw, hP']; ring)
          (by rw [Int.toNat_natCast, hjw, hdropP'])
          r (by rw [hP']; exact hr)
        rwa [hfull]
    · intro s ty acc hacc hs hlen hdrop r hr
      have hsP : s.toNat ≤ P.length := by omega
      have hJ : (joinSp acc.reverse).length = (joinSp acc.reverse).data.length := rfl
      by_cases ht : t = "O"
      · simp only [runsPos, ht, ne_eq, not_true_eq_false, if_false,
          List.mem_cons] at hr
        rcases hr with hr | hr
        · subst hr
          dsimp only
          refine ⟨hs, ?_, ?_⟩
          · rw [hfull, List.length_append, hP'n]
            omega
          · have hdropfull : (P ++ (catSp ((w, t) :: rest)).data).drop s.toNat
                = (joinSp acc.reverse).data
                  ++ ([' '] ++ ((catSp ((w, t) :: rest)).data.drop (s.toNat - P.length))) := by
              rw [List.drop_append_eq_append_drop, hdrop]
              simp [List.append_assoc]
            rw [hdropfull, hJ, List.take_left]
        · obtain ⟨ih1, -⟩ := ih (P ++ w.data ++ [' '])
          have hres := ih1 r (by rw [hP']; exact hr)
          rwa [hfull]
      · simp only [runsPos, if_pos ht] at hr
        obtain ⟨-, ih2⟩ := ih (P ++ w.data ++ [' '])
        have hlen2 : (joinSp ((w :: acc).reverse)).length
            = (joinSp acc.reverse).length + 1 + w.length := by
          rw [List.reverse_cons]
          exact joinSp_concat_length acc.reverse w (by simp [hacc])
        have hdata2 : (joinSp ((w :: acc).reverse)).data
            = (joinSp acc.reverse).data ++ [' '] ++ w.data := by
          rw [List.reverse_cons, joinSp_concat acc.reverse w (by simp [hacc])]
          simp [strData_append]
        have hres := ih2 s ty (w :: acc) (by simp) hs
          (by rw [hlen2, hP']; push_cast; omega)
          (by
            rw [List.append_assoc, List.drop_append_eq_append_drop, hdrop,
              Nat.sub_eq_zero_of_le hsP, List.drop_zero, hdata2]
            simp [List.append_assoc])
          r (by rw [hP']; exact hr)
        rwa [hfull]

/-- Rebuilding a string from its characters is the identity. -/
theorem strMk_data (s : String) : String.mk s.data = s := rfl

/-- A slice that ends strictly before the end of the list is unaffected
by dropping the last element. -/
theorem dropLast_slice (l : List Char) (a L : Nat) (h : a + L < l.length) :
    (l.dropLast.drop a).take L = (l.drop a).take L := by
  rw [List.dropLast_eq_take, List.drop_take, List.take_take]
  congr 1
  omega

/-- The sentence built by `_handle_sentence` is the words joined with
single spaces (at the character level). -/
theorem handle_sentence_sent_data (ex : List (String × String)) :
    (List.foldl hsStep hsInit ex).sent.data = (catSp ex).data := by
  rw [hsFold_sent ex hsInit]
  rfl

/-- C4: the BIO Sentence Converter closes a span met by an `"O"` tag at
the cursor before that word minus one and a span still open at the end
of the sentence at the last word's end; equivalently, the emitted spans
are exactly `(start, start + len(" ".join(run)), type)` for the maximal
non-`"O"` runs, and consequently each span's half-open slice
`sentence[start:end]` spells that run's words joined with single
spaces. -/
theorem handle_sentence_spans_runs (ex : List (String × String)) (hne : ex ≠ []) :
    (_handle_sentence ex).2 = (runsPos 0 none ex).map runSpan
    ∧ ∀ r ∈ runsPos 0 none ex,
        strSlice (_handle_sentence ex).1 r.1 (r.1 + ((joinSp r.2.2).length : Int))
          = joinSp r.2.2 := by
  constructor
  · have h := (hsFold_entities ex).1 0 [] ""
    simpa [_handle_sentence, hsInit] using h
  · intro r hr
    obtain ⟨hpos, hbound, hslice⟩ := (runsPos_slice ex []).1 r (by simpa using hr)
    have h1 : (_handle_sentence ex).1 = String.mk ((catSp ex).data.dropLast) := by
      show String.mk ((List.foldl hsStep hsInit ex).sent.data.dropLast) = _
      rw [handle_sentence_sent_data]
    rw [h1]
    unfold strSlice
    have harith : (r.1 + ((joinSp r.2.2).length : Int) - r.1).toNat
        = (joinSp r.2.2).length := by omega
    rw [harith]
    show String.mk (((catSp ex).data.dropLast.drop r.1.toNat).take
      (joinSp r.2.2).length) = joinSp r.2.2
    rw [dropLast_slice _ _ _ (by simpa using hbound),
      show ((catSp ex).data.drop r.1.toNat).take (joinSp r.2.2).length
        = (joinSp r.2.2).data from by simpa using hslice]

/-- C4, witness: the John Smith sentence. -/
theorem handle_sentence_spans_runs_witness :
    ([("John", "B-PER"), ("Smith", "I-PER"), ("died", "O")]
        : List (String × String)) ≠ []
    ∧ ((_handle_sentence [("John", "B-PER"), ("Smith", "I-PER"), ("died", "O")]).2
        = (runsPos 0 none
            [("John", "B-PER"), ("Smith", "I-PER"), ("died", "O")]).map runSpan
      ∧ ∀ r ∈ runsPos 0 none
            [("John", "B-PER"), ("Smith", "I-PER"), ("died", "O")],
          strSlice
            (_handle_sentence
              [("John", "B-PER"), ("Smith", "I-PER"), ("died", "O")]).1
            r.1 (r.1 + ((joinSp r.2.2).length : Int))
            = joinSp r.2.2) :=
  ⟨by decide,
   handle_sentence_spans_runs
     [("John", "B-PER"), ("Smith", "I-PER"), ("died", "O")] (by decide)⟩

/-- A split with no separator present returns the whole list as the one
segment. -/
theorem splitChar_no_sep (c : Char) (l : List Char) (h : c ∉ l) :
    splitChar c l = [l] := by
  induction l with
  | nil => rfl
  | cons a as ih =>
    have ha : ¬(a = c) := fun he => h (he ▸ List.mem_cons_self a as)
    simp only [splitChar,
      ih (fun hm => h (List.mem_cons_of_mem a hm)), if_neg ha]

/-- Splitting at the first separator occurrence after a separator-free
block detaches that block. -/
theorem splitChar_append (c : Char) (a b : List Char) (h : c ∉ a) :
    splitChar c (a ++ c :: b) = a :: splitChar c b := by
  induction a with
  | nil => simp [splitChar]
  | cons x xs ih =>
    have hx : ¬(x = c) := fun he => h (he ▸ List.mem_cons_self x xs)
    have hih := ih (fun hm => h (List.mem_cons_of_mem x hm))
    show splitChar c (x :: (xs ++ c :: b)) = (x :: xs) :: splitChar c b
    simp only [splitChar, if_neg hx]
    rw [hih]

/-- Splitting a space-join of space-free words returns the words. -/
theorem splitChar_joinSp : ∀ (ws : List String), ws ≠ [] →
    (∀ w ∈ ws, ' ' ∉ w.data) →
    splitChar ' ' (joinSp ws).data = ws.map String.data := by
  intro ws
  induction ws with
  | nil => intro h; cases h rfl
  | cons w vs ih =>
    intro _ hno
    cases vs with
    | nil =>
      show splitChar ' ' (joinSp [w]).data = [w.data]
      exact splitChar_no_sep ' ' w.data (hno w (by simp))
    | cons v vs' =>
      have hdata : (joinSp (w :: v :: vs')).data
          = w.data ++ ' ' :: (joinSp (v :: vs')).data := by
        simp [joinSp, strData_append]
      rw [hdata, splitChar_append ' ' w.data _ (hno w (by simp)),
        ih (by simp) (fun u hu => hno u (List.mem_cons_of_mem w hu))]
      rfl

/-- C6 (amended): for every non-empty BIO sentence the output sentence
is the words joined with single spaces (the built text with its one
trailing space trimmed), unconditionally; and when no word itself
contains a space, splitting the output sentence on single spaces
reproduces the word sequence exactly. -/
theorem handle_sentence_join_split (ex : List (String × String)) (hne : ex ≠ []) :
    (_handle_sentence ex).1 = joinSp (ex.map Prod.fst)
    ∧ ((∀ w ∈ ex.map Prod.fst, ' ' ∉ w.data) →
        pySplit ' ' (_handle_sentence ex).1 = ex.map Prod.fst) := by
  have h1 : (_handle_sentence ex).1 = joinSp (ex.map Prod.fst) := by
    show String.mk ((List.foldl hsStep hsInit ex).sent.data.dropLast) = _
    rw [handle_sentence_sent_data, catSp_eq_joinSp_data ex hne,
      List.dropLast_concat]
  refine ⟨h1, ?_⟩
  intro hno
  rw [h1]
  unfold pySplit
  rw [splitChar_joinSp (ex.map Prod.fst) (by simpa using hne) hno]
  simp [List.map_map, Function.comp_def, strMk_data]

/-- C6, witness: the John Smith sentence, whose words are space-free. -/
theorem handle_sentence_join_split_witness :
    ([("John", "B-PER"), ("Smith", "I-PER"), ("died", "O")]
        : List (String × String)) ≠ []
    ∧ ((_handle_sentence [("John", "B-PER"), ("Smith", "I-PER"), ("died", "O")]).1
        = joinSp ([("John", "B-PER"), ("Smith", "I-PER"),
            ("died", "O")].map Prod.fst)
      ∧ ((∀ w ∈ [("John", "B-PER"), ("Smith", "I-PER"),
            ("died", "O")].map Prod.fst, ' ' ∉ w.data) →
          pySplit ' '
            (_handle_sentence
              [("John", "B-PER"), ("Smith", "I-PER"), ("died", "O")]).1
            = [("John", "B-PER"), ("Smith", "I-PER"),
                ("died", "O")].map Prod.fst)) :=
  ⟨by decide,
   handle_sentence_join_split
     [("John", "B-PER"), ("Smith", "I-PER"), ("died", "O")] (by decide)⟩

/-- C6, counterexample to the split round-trip as universally stated: a
word containing a space splits into two tokens, so splitting the output
sentence does not reproduce the original word sequence. -/
theorem handle_sentence_split_not_inverse :
    pySplit ' ' (_handle_sentence [("a b", "O")]).1 = ["a", "b"]
    ∧ pySplit ' ' (_handle_sentence [("a b", "O")]).1
        ≠ [("a b" : String)] := by decide
